import Mathlib

/-!
Verification development for the andromeda-btcw wallet engine.

Shallow embedding of the account / descriptor / transaction-listing /
transaction-builder / sync code of the repository, with the theorems that
settle the frozen claims about it.

Sources embedded here:
* src/crates/common/src/lib.rs          (ScriptType, ChildNumber, purpose map)
* src/crates/bitcoin/src/account.rs     (build_account_descriptors, Account ops)
* src/proton-wallet-common/src/utils.rs (sort_and_paginate_txs)
* src/proton-wallet-web/src/mnemonic.rs (WasmLanguage -> BdkLanguage)
* src/proton-wallet-web/src/types/transaction.rs (WasmOutPoint conversions)
* src/proton-wallet-web/src/transaction_builder.rs (WasmTxBuilder)
* src/crates/wasm/src/bitcoin/blockchain_client.rs (sync orchestration)

Repository code that the claims need but that is not present under src/
(the newer andromeda_bitcoin generation's Account::apply_update, the
proton_wallet_common TxBuilder and SimpleTransaction::get_time) is modelled
from the spec; each such definition carries a doc comment starting
"Modelled from the spec:".   External library behaviour (rust-bitcoin
OutPoint::from_str / Display, bdk AddressIndex semantics, and bdk 0.x
Wallet::sync's in-place database synchronization as Account::full_sync
invokes it) is translated from the libraries' documented contracts.
-/

namespace Andromeda

/-! ## Common types (src/crates/common/src/lib.rs) -/

/-- Reimpl of BDK's Network enum (src/crates/common/src/lib.rs lines 12-22). -/
inductive Network
  | Bitcoin
  | Testnet
  | Signet
  | Regtest
deriving DecidableEq

/-- BIP32 child number, bdk::bitcoin::bip32::ChildNumber: a normal or a
hardened derivation index. -/
inductive ChildNumber
  | Normal (index : Nat)
  | Hardened (index : Nat)
deriving DecidableEq, BEq

/-- ScriptType enum (src/crates/common/src/lib.rs lines 99-109). -/
inductive ScriptType
  | Legacy
  | NestedSegwit
  | NativeSegwit
  | Taproot
deriving DecidableEq

/-- From ScriptType into ChildNumber (src/crates/common/src/lib.rs lines
122-139): the fixed BIP44/49/84/86 purpose derivation index of each script
type, as a hardened child number. -/
def purpose_child_number (value : ScriptType) : ChildNumber :=
  match value with
  | ScriptType.Legacy => ChildNumber.Hardened 44
  | ScriptType.NestedSegwit => ChildNumber.Hardened 49
  | ScriptType.NativeSegwit => ChildNumber.Hardened 84
  | ScriptType.Taproot => ChildNumber.Hardened 86

/-- bdk::KeychainKind: External = 0, Internal = 1 (the discriminants used by
`KeychainKind::External as u32` in build_account_descriptors). -/
inductive KeychainKind
  | External
  | Internal
deriving DecidableEq

/-- The `as u32` cast of bdk's KeychainKind discriminants. -/
def KeychainKind.toIndex : KeychainKind → Nat
  | KeychainKind.External => 0
  | KeychainKind.Internal => 1

/-! ## Descriptor builder (src/crates/bitcoin/src/account.rs lines 68-98) -/

/-- An extended private key, abstracted to its key material: the descriptor
builder treats it as an opaque value it copies into both descriptors. -/
structure ExtendedPrivKey where
  key : Nat
deriving DecidableEq

/-- The descriptor template chosen per script type by the `descriptor!`
invocations in build_account_descriptors: pkh / sh(wpkh) / wpkh / tr. -/
inductive DescriptorTemplate
  | Pkh
  | ShWpkh
  | Wpkh
  | Tr
deriving DecidableEq

/-- An output descriptor as build_account_descriptors assembles one: a script
template applied to the account extended key with a further derivation path
(one normal child per keychain). -/
structure Descriptor where
  template : DescriptorTemplate
  xkey : ExtendedPrivKey
  derivation : List ChildNumber
deriving DecidableEq

/-- Error enum, the core-relevant variants of the repository's Error types. -/
inductive Error
  | InvalidTxId
  | TransactionNotFound
  | CannotBroadcastTransaction
  | SyncFailure
deriving DecidableEq

/-- The template each `ScriptType` match arm of build_account_descriptors
selects (src/crates/bitcoin/src/account.rs lines 72-77). -/
def script_template (script_type : ScriptType) : DescriptorTemplate :=
  match script_type with
  | ScriptType.Legacy => DescriptorTemplate.Pkh
  | ScriptType.NestedSegwit => DescriptorTemplate.ShWpkh
  | ScriptType.NativeSegwit => DescriptorTemplate.Wpkh
  | ScriptType.Taproot => DescriptorTemplate.Tr

/-- build_account_descriptors (src/crates/bitcoin/src/account.rs lines
68-98): builds the internal descriptor at normal child `Internal as u32 = 1`
and the external descriptor at normal child `External as u32 = 0`, both from
the same account extended private key and the script type's template, and
returns `(external, internal)`. -/
def build_account_descriptors (account_xprv : ExtendedPrivKey) (script_type : ScriptType) :
    Except Error (Descriptor × Descriptor) :=
  let builder := fun (xkey : ExtendedPrivKey × List ChildNumber) =>
    (Except.ok { template := script_template script_type
                 xkey := xkey.1
                 derivation := xkey.2 } : Except Error Descriptor)
  match builder (account_xprv, [ChildNumber.Normal (KeychainKind.toIndex KeychainKind.Internal)]) with
  | Except.error e => Except.error e
  | Except.ok internal =>
    match builder (account_xprv, [ChildNumber.Normal (KeychainKind.toIndex KeychainKind.External)]) with
    | Except.error e => Except.error e
    | Except.ok external => Except.ok (external, internal)

/-! ## Mnemonic languages (src/proton-wallet-web/src/mnemonic.rs) -/

/-- WasmLanguage (src/proton-wallet-web/src/mnemonic.rs lines 8-18). -/
inductive WasmLanguage
  | English
  | SimplifiedChinese
  | TraditionalChinese
  | Czech
  | French
  | Italian
  | Japanese
  | Korean
  | Spanish
deriving DecidableEq

/-- bdk's BIP-39 Language enum (the seed collaborator's language type). -/
inductive BdkLanguage
  | English
  | SimplifiedChinese
  | TraditionalChinese
  | Czech
  | French
  | Italian
  | Japanese
  | Korean
  | Spanish
deriving DecidableEq

/-- From WasmLanguage for BdkLanguage (src/proton-wallet-web/src/mnemonic.rs
lines 20-26): the match has a single wildcard arm yielding English. -/
def wasm_language_to_bdk (value : WasmLanguage) : BdkLanguage :=
  match value with
  | _ => BdkLanguage.English

/-! ## Hex and decimal text machinery

Used by the OutPoint string conversions
(src/proton-wallet-web/src/types/transaction.rs lines 48-65) and by
Txid::from_str in Account::get_transaction.  The parsers translate
rust-bitcoin's documented `OutPoint::from_str` / `Txid::from_str` /
`Display` contracts: a txid displays as 64 lowercase hex digits (byte order
reversed), an outpoint as "txid:vout" with vout in canonical decimal. -/

/-- char::is_ascii_hexdigit. -/
def is_ascii_hexdigit (c : Char) : Bool :=
  c.isDigit || ('a' ≤ c && c ≤ 'f') || ('A' ≤ c && c ≤ 'F')

/-- The numeric value of an ASCII hex digit. -/
def hex_val (c : Char) : Nat :=
  if c.isDigit then c.toNat - 48
  else if 'a' ≤ c then c.toNat - 87
  else c.toNat - 55

/-- One byte as two lowercase hex digits. -/
def byte_to_hex (b : Nat) : List Char :=
  [Nat.digitChar (b / 16), Nat.digitChar (b % 16)]

/-- A byte string as lowercase hex. -/
def hex_of_bytes : List Nat → List Char
  | [] => []
  | b :: bs => byte_to_hex b ++ hex_of_bytes bs

/-- Hex decoding: pairs of hex digits to bytes, failing on a non-hex digit or
an odd number of digits. -/
def parse_hex_bytes : List Char → Option (List Nat)
  | [] => some []
  | [_] => none
  | c1 :: c2 :: rest =>
    if is_ascii_hexdigit c1 && is_ascii_hexdigit c2 then
      (parse_hex_bytes rest).map (fun bs => (hex_val c1 * 16 + hex_val c2) :: bs)
    else none

/-- Canonical decimal digits of a natural number, most significant first. -/
def nat_to_dec (n : Nat) : List Char :=
  if _h : n < 10 then [Nat.digitChar n]
  else nat_to_dec (n / 10) ++ [Nat.digitChar (n % 10)]
decreasing_by
  exact Nat.div_lt_self (Nat.lt_of_lt_of_le (by decide) (Nat.le_of_not_lt _h)) (by decide)

/-- The value of a list of decimal digit characters. -/
def dec_value (cs : List Char) : Nat :=
  cs.foldl (fun a c => a * 10 + (c.toNat - 48)) 0

/-- u32::from_str: an optional leading plus sign, then at least one decimal
digit, rejecting any other character and values past u32::MAX. -/
def parse_u32 (cs : List Char) : Option Nat :=
  let cs2 :=
    match cs with
    | c :: rest => if c = '+' then rest else cs
    | [] => cs
  if cs2.isEmpty then none
  else if cs2.all Char.isDigit then
    let v := dec_value cs2
    if v < 4294967296 then some v else none
  else none

/-- rust-bitcoin's parse_vout: with more than one character a leading zero or
plus sign is non-canonical and rejected, then u32 parsing. -/
def parse_vout (cs : List Char) : Option Nat :=
  if 1 < cs.length ∧ (cs.head? = some '0' ∨ cs.head? = some '+') then none
  else parse_u32 cs

/-- str::find for the colon separator: index of the first colon. -/
def find_colon : List Char → Option Nat
  | [] => none
  | c :: cs => if c = ':' then some 0 else (find_colon cs).map (· + 1)

/-- A transaction id, as rust-bitcoin stores one: 32 bytes (internal order;
Display reverses them). -/
structure OutPoint where
  txid : List Nat
  vout : Nat
deriving DecidableEq, BEq

/-- Txid::from_str: exactly 64 hex digits, decoded to 32 bytes and reversed
into internal byte order. -/
def parse_txid_chars (cs : List Char) : Option (List Nat) :=
  if cs.length = 64 then (parse_hex_bytes cs).map List.reverse else none

/-- Txid Display: the 32 bytes hex-encoded in reverse order, lowercase. -/
def txid_to_chars (t : List Nat) : List Char :=
  hex_of_bytes t.reverse

/-- OutPoint Display: "txid:vout" with the vout in decimal. -/
def out_point_to_chars (o : OutPoint) : List Char :=
  txid_to_chars o.txid ++ ':' :: nat_to_dec o.vout

/-- rust-bitcoin OutPoint::from_str: refuse strings past 75 characters, find
the first colon (refusing a missing, leading or trailing one), parse the
prefix as a txid and the suffix as a canonical vout. -/
def out_point_from_chars (cs : List Char) : Option OutPoint :=
  if 75 < cs.length then none
  else
    match find_colon cs with
    | none => none
    | some i =>
      if i = 0 ∨ i = cs.length - 1 then none
      else
        match parse_txid_chars (cs.take i), parse_vout (cs.drop (i + 1)) with
        | some t, some v => some { txid := t, vout := v }
        | _, _ => none

/-- WasmError, the binding-layer error relevant here
(src/proton-wallet-web: OutpointParsingError). -/
inductive WasmError
  | OutpointParsingError
deriving DecidableEq

/-- WasmOutPoint (src/proton-wallet-web/src/types/transaction.rs lines
48-51): a serialised outpoint of the form "txid:index". -/
structure WasmOutPoint where
  val : String

/-- Into WasmOutPoint for OutPoint (src/proton-wallet-web/src/types/
transaction.rs lines 61-65): OutPoint::to_string. -/
def wasm_out_point_of_out_point (o : OutPoint) : WasmOutPoint :=
  { val := String.mk (out_point_to_chars o) }

/-- TryInto OutPoint for WasmOutPoint (src/proton-wallet-web/src/types/
transaction.rs lines 53-59): OutPoint::from_str, any parse failure mapped to
WasmError::OutpointParsingError. -/
def wasm_out_point_try_into (w : WasmOutPoint) : Except WasmError OutPoint :=
  match out_point_from_chars w.val.data with
  | some o => Except.ok o
  | none => Except.error WasmError.OutpointParsingError

/-- The "txid:index" grammar, written from the claim's words independently of
the parser: 64 hex digits, a colon, then a canonical decimal index below
2^32. -/
def is_txid_form (cs : List Char) : Bool :=
  cs.length == 64 && cs.all is_ascii_hexdigit

/-- Canonical decimal vout text: nonempty digits, no leading zero unless the
number is a single digit, value below 2^32. -/
def is_vout_form (cs : List Char) : Bool :=
  !cs.isEmpty && cs.all Char.isDigit && (cs.length == 1 || !(cs.head? == some '0'))
    && dec_value cs < 4294967296

/-- The outpoint string form "txid:index". -/
def is_out_point_form (cs : List Char) : Bool :=
  match find_colon cs with
  | none => false
  | some i =>
    !(i == 0) && !(i == cs.length - 1) && is_txid_form (cs.take i)
      && is_vout_form (cs.drop (i + 1))

/-! ## Transactions and pagination
(src/proton-wallet-common/src/utils.rs, src/crates/bitcoin/src/account.rs) -/

/-- TransactionTime: a tagged variant, confirmation time for a confirmed
transaction or last-seen time for an unconfirmed one (shape as converted in
src/proton-wallet-web/src/types/transaction.rs lines 161-176). -/
inductive TransactionTime
  | Confirmed (confirmation_time : Nat)
  | Unconfirmed (last_seen : Nat)
deriving DecidableEq, BEq

/-- SimpleTransaction (fields as exposed in src/proton-wallet-web/src/types/
transaction.rs lines 195-217). -/
structure SimpleTransaction where
  txid : List Nat
  value : Int
  fees : Option Nat
  time : TransactionTime
  account_key : Option (List ChildNumber)
deriving DecidableEq, BEq

/-- Modelled from the spec: SimpleTransaction::get_time lives in
proton-wallet-common/src/transactions.rs, which is not under src/; the spec
says sorting uses "descending time where confirmed transactions' timestamp is
their confirmation time and unconfirmed ones use last-seen time". -/
def SimpleTransaction.get_time (tx : SimpleTransaction) : Nat :=
  match tx.time with
  | TransactionTime.Confirmed confirmation_time => confirmation_time
  | TransactionTime.Unconfirmed last_seen => last_seen

/-- Pagination: skip and take. -/
structure Pagination where
  skip : Nat
  take : Nat
deriving DecidableEq

/-- The comparator sort_and_paginate_txs passes to the sort:
`b.get_time().partial_cmp(&a.get_time())`, i.e. a may precede b exactly when
a's time is at least b's (descending by time, stable on ties). -/
def tx_time_le (a b : SimpleTransaction) : Bool :=
  b.get_time ≤ a.get_time

/-- sort_and_paginate_txs (src/proton-wallet-common/src/utils.rs lines 6-23):
when `sorted`, stable-sort by descending time, then skip `pagination.skip`
entries and take `pagination.take`. -/
def sort_and_paginate_txs (simple_txs : List SimpleTransaction) (pagination : Pagination)
    (sorted : Bool) : List SimpleTransaction :=
  let txs := if sorted then simple_txs.mergeSort tx_time_le else simple_txs
  (txs.drop pagination.skip).take pagination.take

/-! ## Account store and state (src/crates/bitcoin/src/account.rs,
src/crates/wasm/src/bitcoin/account.rs) -/

/-- The confirmation category of a tracked unspent output, as bdk's balance
accounting classifies it. -/
inductive UtxoStatus
  | Immature
  | TrustedPending
  | UntrustedPending
  | Confirmed
deriving DecidableEq, BEq

/-- A tracked unspent output. -/
structure Utxo where
  outpoint : OutPoint
  value : Nat
  keychain : KeychainKind
  status : UtxoStatus
deriving DecidableEq, BEq

/-- A transaction as the account's local store records it. -/
structure StoredTransaction where
  txid : List Nat
  value : Int
  fees : Option Nat
  time : TransactionTime
deriving DecidableEq, BEq

/-- The account's wallet-local store: UTXO set, transaction history and sync
checkpoint. -/
structure AccountStore where
  utxos : List Utxo
  txs : List StoredTransaction
  checkpoint : Nat
deriving DecidableEq, BEq

/-- Balance (shape as in src/crates/wasm/src/bitcoin/types/balance.rs). -/
structure Balance where
  immature : Nat
  trusted_pending : Nat
  untrusted_pending : Nat
  confirmed : Nat
deriving DecidableEq

/-- Modelled from the spec: bdk's Wallet::get_balance, summed from the store
snapshot per category ("derived, not stored"); never performs I/O. -/
def balance_of (store : AccountStore) : Balance :=
  let sum := fun (s : UtxoStatus) =>
    ((store.utxos.filter (fun u => u.status == s)).map (fun u => u.value)).sum
  { immature := sum UtxoStatus.Immature
    trusted_pending := sum UtxoStatus.TrustedPending
    untrusted_pending := sum UtxoStatus.UntrustedPending
    confirmed := sum UtxoStatus.Confirmed }

/-- TransactionDetails, the single-transaction lookup result.  Modelled from
the spec: TransactionDetails::from_bdk is in the andromeda_bitcoin
transactions module, not under src/; it projects the stored transaction (the
resolved input/output lists are left out of the model). -/
structure TransactionDetails where
  txid : List Nat
  value : Int
  fees : Option Nat
  time : TransactionTime
deriving DecidableEq

/-- The detail projection of a stored transaction. -/
def details_of (tx : StoredTransaction) : TransactionDetails :=
  { txid := tx.txid, value := tx.value, fees := tx.fees, time := tx.time }

/-- Account::get_transaction (src/crates/bitcoin/src/account.rs lines
253-263): parse the txid string (InvalidTxId on malformed input), look the
transaction up in the store (TransactionNotFound when absent), else return
its details. -/
def AccountStore.get_transaction (store : AccountStore) (txid : String) :
    Except Error TransactionDetails :=
  match parse_txid_chars txid.data with
  | none => Except.error Error.InvalidTxId
  | some t =>
    match store.txs.find? (fun tx => tx.txid == t) with
    | none => Except.error Error.TransactionNotFound
    | some tx => Except.ok (details_of tx)

/-- SimpleTransaction::from_detailled_tx with `Some(derivation_path)`
(as called in src/crates/bitcoin/src/account.rs line 246).  Modelled from
the spec: the constructor itself is not under src/. -/
def from_detailled_tx (tx : StoredTransaction) (account_key : Option (List ChildNumber)) :
    SimpleTransaction :=
  { txid := tx.txid, value := tx.value, fees := tx.fees, time := tx.time
    account_key := account_key }

/-- The full account state: the store plus the keychains' derivation data
(the derived address at each index of the external and internal keychain,
which external addresses have observed usage, and how many addresses each
keychain has revealed). -/
structure AccountState where
  store : AccountStore
  derivation_path : List ChildNumber
  derive : Nat → Nat
  derive_int : Nat → Nat
  used : Nat → Bool
  revealed : Nat
  revealed_int : Nat

/-- Account::get_address (src/crates/bitcoin/src/account.rs lines 201-204)
with bdk's AddressIndex semantics: `Some i` maps to AddressIndex::Peek(i),
which derives the address at index i of the external keychain without
touching any state; `None` maps to AddressIndex::LastUnused, which returns
the most recently revealed external address if it is unused and otherwise
reveals the next one. -/
def AccountState.get_address (st : AccountState) (index : Option Nat) : Nat × AccountState :=
  match index with
  | some i => (st.derive i, st)
  | none =>
    if 0 < st.revealed ∧ st.used (st.revealed - 1) = false then
      (st.derive (st.revealed - 1), st)
    else
      (st.derive st.revealed, { st with revealed := st.revealed + 1 })

/-- Account::owns (src/crates/bitcoin/src/account.rs lines 208-210), bdk
is_mine: the address matches either keychain's descriptor at some
already-derived index. -/
def AccountState.owns (st : AccountState) (address : Nat) : Bool :=
  (List.range st.revealed).any (fun j => st.derive j == address)
    || (List.range st.revealed_int).any (fun j => st.derive_int j == address)

/-- Account::get_transactions (src/crates/bitcoin/src/account.rs lines
231-250): project the store's history to simple transactions tagged with the
derivation path, then sort_and_paginate_txs. -/
def AccountState.get_transactions (st : AccountState) (pagination : Pagination)
    (sorted : Bool) : List SimpleTransaction :=
  let simple_txs := st.store.txs.map (fun tx => from_detailled_tx tx (some st.derivation_path))
  sort_and_paginate_txs simple_txs pagination sorted

/-! ## Chain synchronization

Two generations of sync code meet in the repository.  Under src/,
Account::full_sync (src/crates/bitcoin/src/account.rs lines 287-297) syncs
the account's bdk 0.x wallet in place: bdk's Wallet::sync writes the fetched
chain state directly into the wallet's database (through the database's
interior mutability) and returns unit, so the account's local store changes
during the sync call itself.  The newer orchestration in
src/crates/wasm/src/bitcoin/blockchain_client.rs instead calls
BlockchainClient::{full_sync, partial_sync} and Account::apply_update of a
newer andromeda_bitcoin generation that is not under src/; of that
generation only apply_update, the mutation entry point those wasm callers
invoke, is modelled here (from the spec). -/

/-- A sync update: the delta a sync computes and apply_update merges. -/
structure Update where
  new_utxos : List Utxo
  spent_outpoints : List OutPoint
  new_txs : List StoredTransaction
  new_checkpoint : Nat
deriving DecidableEq, BEq

/-- Modelled from the spec: Account::apply_update (invoked from
src/crates/wasm/src/bitcoin/blockchain_client.rs lines 128 and 144 but not
itself under src/) "atomically merges a Sync Update into the store
(adds/removes UTXOs, appends transaction history, advances checkpoint)". -/
def AccountStore.apply_update (store : AccountStore) (u : Update) : AccountStore :=
  { utxos :=
      store.utxos.filter (fun x => !(u.spent_outpoints.contains x.outpoint))
        ++ u.new_utxos.filter (fun x => !((store.utxos.map (fun y => y.outpoint)).contains x.outpoint))
    txs := store.txs ++ u.new_txs.filter (fun tx => !((store.txs.map (fun y => y.txid)).contains tx.txid))
    checkpoint := max store.checkpoint u.new_checkpoint }

/-- The external ledger collaborator's visible state: whether the network
call fails, the activity the ledger indexes per address, and its tip. -/
structure Ledger where
  network_failure : Bool
  utxos_at : Nat → List Utxo
  txs_at : Nat → List StoredTransaction
  tip : Nat

/-- All UTXOs the ledger reports for a list of addresses. -/
def collect_utxos (led : Ledger) (addrs : List Nat) : List Utxo :=
  addrs.foldr (fun a acc => led.utxos_at a ++ acc) []

/-- All history the ledger reports for a list of addresses. -/
def collect_txs (led : Ledger) (addrs : List Nat) : List StoredTransaction :=
  addrs.foldr (fun a acc => led.txs_at a ++ acc) []

/-- bdk 0.x Wallet::sync, as Account::full_sync invokes it: per its
documented contract it syncs the wallet's internal database with the
blockchain — it queries the chain source for the wallet's derived script
pubkeys and writes the fetched transactions, UTXOs and checkpoint directly
into the wallet's database, returning unit.  The write into the store is
modelled with the same delta-merge as apply_update; a network failure
surfaces as an error with the database untouched. -/
def bdk_wallet_sync (led : Ledger) (st : AccountState) : Except Error AccountState :=
  if led.network_failure then Except.error Error.SyncFailure
  else
    let addrs := (List.range st.revealed).map st.derive
      ++ (List.range st.revealed_int).map st.derive_int
    let u : Update :=
      { new_utxos := collect_utxos led addrs
        spent_outpoints := []
        new_txs := collect_txs led addrs
        new_checkpoint := led.tip }
    Except.ok { st with store := st.store.apply_update u }

/-- Account::full_sync (src/crates/bitcoin/src/account.rs lines 287-297):
builds an EsploraBlockchain and calls bdk Wallet::sync on the account's own
wallet.  On success it returns Ok(()) — no update value is handed back for
the caller to apply — and the account's store has already been updated in
place by the sync call. -/
def account_full_sync (led : Ledger) (st : AccountState) :
    Except Error Unit × AccountState :=
  match bdk_wallet_sync led st with
  | Except.error e => (Except.error e, st)
  | Except.ok st2 => (Except.ok (), st2)

/-- The operations a caller can run against an account after construction
(the Account surface of src/crates/bitcoin/src/account.rs, plus apply_update
as the wasm sync orchestration invokes it). -/
inductive AccountOp
  | get_balance
  | get_utxos
  | get_address (index : Option Nat)
  | owns (address : Nat)
  | get_transactions (pagination : Pagination) (sorted : Bool)
  | get_transaction (txid : String)
  | full_sync (led : Ledger)
  | apply_update (u : Update)

/-- The result an account operation returns. -/
inductive OpResult
  | balance (b : Balance)
  | utxos (us : List Utxo)
  | address (a : Nat)
  | boolean (b : Bool)
  | txs (ts : List SimpleTransaction)
  | tx (r : Except Error TransactionDetails)
  | sync_result (r : Except Error Unit)
  | unit

/-- Run one account operation: the operation's result and the account state
it leaves behind. -/
def run_op (op : AccountOp) (st : AccountState) : OpResult × AccountState :=
  match op with
  | AccountOp.get_balance => (OpResult.balance (balance_of st.store), st)
  | AccountOp.get_utxos => (OpResult.utxos st.store.utxos, st)
  | AccountOp.get_address i =>
    let r := st.get_address i
    (OpResult.address r.1, r.2)
  | AccountOp.owns a => (OpResult.boolean (st.owns a), st)
  | AccountOp.get_transactions p s => (OpResult.txs (st.get_transactions p s), st)
  | AccountOp.get_transaction txid => (OpResult.tx (st.store.get_transaction txid), st)
  | AccountOp.full_sync led =>
    let r := account_full_sync led st
    (OpResult.sync_result r.1, r.2)
  | AccountOp.apply_update u => (OpResult.unit, { st with store := st.store.apply_update u })

/-! ## Transaction builder (src/proton-wallet-web/src/transaction_builder.rs;
its inner proton_wallet_common TxBuilder is not under src/ and is modelled
from the spec). -/

/-- TmpRecipient(uuid, address, amount).  The uuid is drawn from an external
randomness source; no claim depends on its value, so the model gives fresh
recipients a fixed empty id. -/
structure TmpRecipient where
  uuid : String
  address : String
  amount : Nat
deriving DecidableEq, BEq

/-- CoinSelection (src/proton-wallet-web/src/transaction_builder.rs lines
23-28). -/
inductive CoinSelection
  | BranchAndBound
  | LargestFirst
  | OldestFirst
  | Manual
deriving DecidableEq

/-- ChangeSpendPolicy (src/proton-wallet-web/src/transaction_builder.rs
lines 54-58). -/
inductive ChangeSpendPolicy
  | ChangeAllowed
  | OnlyChange
  | ChangeForbidden
deriving DecidableEq

/-- A locktime value (src/proton-wallet-web/src/types/locktime.rs shape). -/
inductive LockTime
  | Blocks (n : Nat)
  | Seconds (n : Nat)
deriving DecidableEq

/-- Modelled from the spec: the TxBuilder configuration state
(proton-wallet-common/src/transaction_builder.rs is not under src/): "bound
account reference, ordered list of recipients, set of explicitly pinned
UTXOs to spend, coin-selection policy, change policy, optional fee-rate, RBF
flag, optional locktime".  The fee rate (an f32 of sat/vB in the source) is
modelled as a natural number; only its presence and preservation matter to
the claims. -/
structure TxBuilder where
  account : Option Nat
  recipients : List TmpRecipient
  utxos_to_spend : List OutPoint
  coin_selection : CoinSelection
  change_policy : ChangeSpendPolicy
  fee_rate : Option Nat
  rbf_enabled : Bool
  locktime : Option LockTime
deriving DecidableEq

/-- TxBuilder::new. -/
def TxBuilder.new : TxBuilder :=
  { account := none
    recipients := []
    utxos_to_spend := []
    coin_selection := CoinSelection.BranchAndBound
    change_policy := ChangeSpendPolicy.ChangeAllowed
    fee_rate := none
    rbf_enabled := false
    locktime := none }

/-- The configuration operations of WasmTxBuilder
(src/proton-wallet-web/src/transaction_builder.rs lines 84-288). -/
inductive TxBuilderOp
  | set_account (a : Nat)
  | add_recipient
  | remove_recipient (i : Nat)
  | update_recipient (i : Nat) (address : Option String) (amount : Option Nat)
  | add_utxo_to_spend (o : OutPoint)
  | remove_utxo_to_spend (o : OutPoint)
  | clear_utxos_to_spend
  | set_coin_selection (c : CoinSelection)
  | set_change_policy (p : ChangeSpendPolicy)
  | set_fee_rate (r : Nat)
  | enable_rbf
  | disable_rbf
  | add_locktime (l : LockTime)
  | remove_locktime

/-- Modelled from the spec: each inner TxBuilder method "returns a new
builder value reflecting the change". -/
def TxBuilderOp.apply : TxBuilderOp → TxBuilder → TxBuilder
  | TxBuilderOp.set_account a, b => { b with account := some a }
  | TxBuilderOp.add_recipient, b =>
    { b with recipients := b.recipients ++ [{ uuid := "", address := "", amount := 0 }] }
  | TxBuilderOp.remove_recipient i, b => { b with recipients := b.recipients.eraseIdx i }
  | TxBuilderOp.update_recipient i addr amt, b =>
    match b.recipients[i]? with
    | some r =>
      let r2 := { r with address := addr.getD r.address, amount := amt.getD r.amount }
      { b with recipients := b.recipients.set i r2 }
    | none => b
  | TxBuilderOp.add_utxo_to_spend o, b => { b with utxos_to_spend := b.utxos_to_spend ++ [o] }
  | TxBuilderOp.remove_utxo_to_spend o, b =>
    { b with utxos_to_spend := b.utxos_to_spend.filter (fun x => !(x == o)) }
  | TxBuilderOp.clear_utxos_to_spend, b => { b with utxos_to_spend := [] }
  | TxBuilderOp.set_coin_selection c, b => { b with coin_selection := c }
  | TxBuilderOp.set_change_policy p, b => { b with change_policy := p }
  | TxBuilderOp.set_fee_rate r, b => { b with fee_rate := some r }
  | TxBuilderOp.enable_rbf, b => { b with rbf_enabled := true }
  | TxBuilderOp.disable_rbf, b => { b with rbf_enabled := false }
  | TxBuilderOp.add_locktime l, b => { b with locktime := some l }
  | TxBuilderOp.remove_locktime, b => { b with locktime := none }

/-- The WasmTxBuilder wrappers live in a host object store: each call reads
the receiver (`&self`), applies the inner operation, and wraps the result in
a fresh WasmTxBuilder object, leaving every existing object in place
(src/proton-wallet-web/src/transaction_builder.rs: every method takes
`&self` and returns `WasmTxBuilder { inner }`).  The store is the list of
builder objects, a handle an index into it. -/
def run_wasm_op (op : TxBuilderOp) (h : Nat) (sess : List TxBuilder) :
    Nat × List TxBuilder :=
  match sess[h]? with
  | some b => (sess.length, sess ++ [op.apply b])
  | none => (h, sess)

/-! ## Concrete sample values (used by the witness theorems) -/

/-- A sample stored transaction with an all-zero txid. -/
def sample_tx : StoredTransaction :=
  { txid := List.replicate 32 0
    value := 0
    fees := none
    time := TransactionTime.Unconfirmed 7 }

/-- A sample store holding sample_tx. -/
def sample_store : AccountStore :=
  { utxos := [], txs := [sample_tx], checkpoint := 0 }

/-- An empty sample store. -/
def empty_store : AccountStore :=
  { utxos := [], txs := [], checkpoint := 0 }

/-- A sample account state over sample_store. -/
def sample_state : AccountState :=
  { store := sample_store
    derivation_path := [ChildNumber.Hardened 84, ChildNumber.Hardened 1, ChildNumber.Hardened 0]
    derive := fun i => i
    derive_int := fun i => 1000 + i
    used := fun _ => false
    revealed := 0
    revealed_int := 0 }

/-- A chain transaction a ledger can report for the account's first external
address. -/
def chain_tx : StoredTransaction :=
  { txid := List.replicate 32 1
    value := 50000
    fees := none
    time := TransactionTime.Confirmed 99 }

/-- A ledger that reports chain_tx at address 0 and tip height 100. -/
def mutating_ledger : Ledger :=
  { network_failure := false
    utxos_at := fun _ => []
    txs_at := fun a => if a = 0 then [chain_tx] else []
    tip := 100 }

/-- An account state with one revealed external address (address 0) over an
empty store. -/
def one_address_state : AccountState :=
  { store := empty_store
    derivation_path := [ChildNumber.Hardened 84, ChildNumber.Hardened 1, ChildNumber.Hardened 0]
    derive := fun i => i
    derive_int := fun i => 1000 + i
    used := fun _ => false
    revealed := 1
    revealed_int := 0 }

/-- The all-zero txid as a 64-character string. -/
def zero_txid_string : String :=
  String.mk (List.replicate 64 '0')

end Andromeda

namespace Andromeda

/-! ## Theorems -/

/-- C2: For every account extended private key and every script type, two
runs of the descriptor builder with the same inputs produce identical
external and internal descriptors: descriptor construction is a
deterministic, pure function of its inputs (it reads no ambient state). -/
theorem c2_build_account_descriptors_deterministic
    (x1 x2 : ExtendedPrivKey) (s1 s2 : ScriptType) (hx : x1 = x2) (hs : s1 = s2) :
    build_account_descriptors x1 s1 = build_account_descriptors x2 s2 := by
  subst hx
  subst hs
  rfl

/-- Witness for C2 at a concrete key and script type. -/
theorem c2_witness :
    build_account_descriptors { key := 7 } ScriptType.Taproot
      = build_account_descriptors { key := 7 } ScriptType.Taproot :=
  c2_build_account_descriptors_deterministic
    { key := 7 } { key := 7 } ScriptType.Taproot ScriptType.Taproot rfl rfl

/-- C3: The derivation purpose index is exactly Legacy=44, NestedSegwit=49,
NativeSegwit=84, Taproot=86 as a hardened child number, and descriptor
construction derives the external keychain at normal child index 0 and the
internal (change) keychain at normal child index 1. -/
theorem c3_purpose_indices_and_keychain_children :
    purpose_child_number ScriptType.Legacy = ChildNumber.Hardened 44
    ∧ purpose_child_number ScriptType.NestedSegwit = ChildNumber.Hardened 49
    ∧ purpose_child_number ScriptType.NativeSegwit = ChildNumber.Hardened 84
    ∧ purpose_child_number ScriptType.Taproot = ChildNumber.Hardened 86
    ∧ ∀ (xprv : ExtendedPrivKey) (script_type : ScriptType),
        ∃ ext inte, build_account_descriptors xprv script_type = Except.ok (ext, inte)
          ∧ ext.derivation = [ChildNumber.Normal 0]
          ∧ inte.derivation = [ChildNumber.Normal 1] := by
  refine ⟨rfl, rfl, rfl, rfl, fun xprv script_type => ⟨_, _, rfl, rfl, rfl⟩⟩

/-- C9: Every mnemonic-language variant accepted at the public interface is
converted to the single fixed default BdkLanguage.English by the total (thus
never-failing) conversion passed to the seed collaborator. -/
theorem c9_language_conversion_defaults_english :
    ∀ l : WasmLanguage, wasm_language_to_bdk l = BdkLanguage.English := by
  intro l
  cases l <;> rfl

/-- C7: get_address(Some(i)) is a pure, side-effect-free peek: the account
state after the call is the state before it, calling it twice with the same
index returns the same address both times, and the call does not change
which address a subsequent get_address(None) returns. -/
theorem c7_get_address_peek_pure (st : AccountState) (i : Nat) :
    (st.get_address (some i)).2 = st
    ∧ ((st.get_address (some i)).2.get_address (some i)).1 = (st.get_address (some i)).1
    ∧ ((st.get_address (some i)).2.get_address none).1 = (st.get_address none).1 :=
  ⟨rfl, rfl, rfl⟩

/-- C8: Immediately after generating an address with get_address(None), owns
applied to that address returns true in the resulting state. -/
theorem c8_owns_generated_address (st : AccountState) :
    ((st.get_address none).2).owns ((st.get_address none).1) = true := by
  by_cases hc : 0 < st.revealed ∧ st.used (st.revealed - 1) = false
  · obtain ⟨h1, _h2⟩ := hc
    have hj : st.revealed - 1 ∈ List.range st.revealed := by
      rw [List.mem_range]
      omega
    simp only [AccountState.get_address, if_pos (And.intro h1 _h2), AccountState.owns,
      Bool.or_eq_true, List.any_eq_true]
    exact Or.inl ⟨st.revealed - 1, hj, by simp⟩
  · have hj : st.revealed ∈ List.range (st.revealed + 1) := by
      rw [List.mem_range]
      omega
    simp only [AccountState.get_address, if_neg hc, AccountState.owns,
      Bool.or_eq_true, List.any_eq_true]
    exact Or.inl ⟨st.revealed, hj, by simp⟩

/-- C1: demonstration that the claim fails against the code under src/.
Account::full_sync, run at a concrete account with one revealed external
address over an empty store against a ledger reporting one confirmed
transaction for that address, returns Ok(()) and has already changed the
account's local store in place — the fetched transaction appears in the
history and the checkpoint advances to the ledger's tip — although no
apply_update was executed: bdk 0.x Wallet::sync writes the fetched chain
state directly into the wallet's database rather than returning an update
for the caller to apply. -/
theorem c1_full_sync_mutates_store :
    (run_op (AccountOp.full_sync mutating_ledger) one_address_state).1
        = OpResult.sync_result (Except.ok ())
    ∧ ((run_op (AccountOp.full_sync mutating_ledger) one_address_state).2).store
        = { utxos := [], txs := [chain_tx], checkpoint := 100 }
    ∧ ¬ ((run_op (AccountOp.full_sync mutating_ledger) one_address_state).2).store
        = one_address_state.store :=
  ⟨rfl, by decide, by decide⟩

/-- C4: get_transactions with sorted=true first orders the entries by
descending time (confirmation time for confirmed transactions, last-seen
time for unconfirmed ones, via get_time) and then returns exactly the slice
[s, s+t) of the sorted list; when s is at least the list length the result
is the empty list.  The account operation delegates to sort_and_paginate_txs
over the store's projected history. -/
theorem c4_sort_and_paginate_slice (txs : List SimpleTransaction) (s t : Nat) :
    (∃ L : List SimpleTransaction,
      List.Perm L txs
      ∧ L.Pairwise (fun a b => b.get_time ≤ a.get_time)
      ∧ sort_and_paginate_txs txs { skip := s, take := t } true = (L.drop s).take t
      ∧ (txs.length ≤ s → sort_and_paginate_txs txs { skip := s, take := t } true = []))
    ∧ ∀ st : AccountState,
        st.get_transactions { skip := s, take := t } true
          = sort_and_paginate_txs
              (st.store.txs.map (fun tx => from_detailled_tx tx (some st.derivation_path)))
              { skip := s, take := t } true := by
  constructor
  · have htrans : ∀ a b c : SimpleTransaction,
        tx_time_le a b = true → tx_time_le b c = true → tx_time_le a c = true := by
      intro a b c hab hbc
      simp only [tx_time_le, decide_eq_true_eq] at *
      omega
    have htotal : ∀ a b : SimpleTransaction, (tx_time_le a b || tx_time_le b a) = true := by
      intro a b
      simp only [tx_time_le, Bool.or_eq_true, decide_eq_true_eq]
      omega
    refine ⟨txs.mergeSort tx_time_le, List.mergeSort_perm txs tx_time_le, ?_, rfl, ?_⟩
    · exact (List.sorted_mergeSort htrans htotal txs).imp
        (fun hb => by simpa [tx_time_le] using hb)
    · intro hs
      have hlen : (txs.mergeSort tx_time_le).length ≤ s := by
        rw [List.length_mergeSort]
        exact hs
      simp only [sort_and_paginate_txs, if_true]
      rw [List.drop_eq_nil_of_le hlen, List.take_nil]
  · intro st
    rfl

/-- C5: Every transaction-builder configuration operation, run against the
host object store, hands back a new builder value reflecting the change
while the receiver object — and every other existing builder object — is
left unmodified in the store. -/
theorem c5_tx_builder_persistent (op : TxBuilderOp) (h : Nat) (sess : List TxBuilder)
    (b : TxBuilder) (hb : sess[h]? = some b) :
    ((run_wasm_op op h sess).2)[h]? = some b
    ∧ ((run_wasm_op op h sess).2)[(run_wasm_op op h sess).1]? = some (op.apply b)
    ∧ ∀ j, j < sess.length → ((run_wasm_op op h sess).2)[j]? = sess[j]? := by
  have hlt : h < sess.length := by
    by_contra hge
    rw [List.getElem?_eq_none (Nat.le_of_not_lt hge)] at hb
    exact Option.noConfusion hb
  have hframe : ∀ j, j < sess.length → (sess ++ [op.apply b])[j]? = sess[j]? := by
    intro j hj
    rw [List.getElem?_append]
    simp [hj]
  refine ⟨?_, ?_, ?_⟩
  · simp only [run_wasm_op, hb]
    rw [hframe h hlt]
    exact hb
  · simp only [run_wasm_op, hb]
    exact List.getElem?_concat_length sess (op.apply b)
  · intro j hj
    simp only [run_wasm_op, hb]
    exact hframe j hj

/-- Witness for C5: enabling RBF on a fresh builder in a one-object store. -/
theorem c5_witness :
    ((run_wasm_op TxBuilderOp.enable_rbf 0 [TxBuilder.new]).2)[0]? = some TxBuilder.new :=
  (c5_tx_builder_persistent TxBuilderOp.enable_rbf 0 [TxBuilder.new] TxBuilder.new rfl).1

end Andromeda

namespace Andromeda

/-- C6: For a well-formed txid string, get_transaction returns the
TransactionNotFound error (and hence no transaction detail) whenever the
txid is absent from the account's store, and returns a detailed transaction
when the txid is present. -/
theorem c6_get_transaction_not_found (store : AccountStore) (s : String) (t : List Nat)
    (h : parse_txid_chars s.data = some t) :
    ((∀ tx ∈ store.txs, ¬ tx.txid = t) →
        store.get_transaction s = Except.error Error.TransactionNotFound)
    ∧ (∀ tx ∈ store.txs, tx.txid = t →
        ∃ d, store.get_transaction s = Except.ok d) := by
  constructor
  · intro habs
    have hnone : store.txs.find? (fun tx => tx.txid == t) = none := by
      rw [List.find?_eq_none]
      intro x hx
      simpa using habs x hx
    simp only [AccountStore.get_transaction, h, hnone]
  · intro tx htx heq
    have hsome : (store.txs.find? (fun tx => tx.txid == t)).isSome = true := by
      rw [List.find?_isSome]
      exact ⟨tx, htx, by simp [heq]⟩
    cases hfind : store.txs.find? (fun tx => tx.txid == t) with
    | none =>
      rw [hfind] at hsome
      simp at hsome
    | some tx2 =>
      exact ⟨details_of tx2, by simp only [AccountStore.get_transaction, h, hfind]⟩

/-- Witness for C6: the all-zero txid is well-formed and absent from the
empty store, so the lookup fails with TransactionNotFound. -/
theorem c6_witness :
    empty_store.get_transaction zero_txid_string = Except.error Error.TransactionNotFound :=
  (c6_get_transaction_not_found empty_store zero_txid_string (List.replicate 32 0)
      (by decide)).1
    (by intro tx htx; simp [empty_store] at htx)

end Andromeda

namespace Andromeda

/-! ### Text machinery lemmas (towards C10) -/

/-- Hex digits encode and decode. -/
theorem hex_digit_round_fin : ∀ d : Fin 16,
    is_ascii_hexdigit (Nat.digitChar d.val) = true
      ∧ hex_val (Nat.digitChar d.val) = d.val := by decide

/-- Hex digits encode and decode, Nat form. -/
theorem hex_digit_round (n : Nat) (h : n < 16) :
    is_ascii_hexdigit (Nat.digitChar n) = true ∧ hex_val (Nat.digitChar n) = n := by
  simpa using hex_digit_round_fin ⟨n, h⟩

/-- Decimal digit characters are digits. -/
theorem digit_char_is_digit_fin : ∀ d : Fin 10, (Nat.digitChar d.val).isDigit = true := by
  decide

/-- Decimal digit characters are digits, Nat form. -/
theorem digit_char_is_digit (n : Nat) (h : n < 10) : (Nat.digitChar n).isDigit = true := by
  simpa using digit_char_is_digit_fin ⟨n, h⟩

/-- Decimal digit characters decode. -/
theorem digit_char_to_nat_fin : ∀ d : Fin 10, (Nat.digitChar d.val).toNat - 48 = d.val := by
  decide

/-- Decimal digit characters decode, Nat form. -/
theorem digit_char_to_nat (n : Nat) (h : n < 10) : (Nat.digitChar n).toNat - 48 = n := by
  simpa using digit_char_to_nat_fin ⟨n, h⟩

/-- A nonzero decimal digit is not the zero character. -/
theorem digit_char_ne_zero_fin : ∀ d : Fin 10, 1 ≤ d.val → Nat.digitChar d.val ≠ '0' := by
  decide

/-- A nonzero decimal digit is not the zero character, Nat form. -/
theorem digit_char_ne_zero (n : Nat) (h1 : 1 ≤ n) (h2 : n < 10) :
    Nat.digitChar n ≠ '0' := by
  simpa using digit_char_ne_zero_fin ⟨n, h2⟩ (by simpa using h1)

/-- Hex encoding of a byte string decodes to the byte string. -/
theorem parse_hex_of_bytes (bs : List Nat) (hb : ∀ b ∈ bs, b < 256) :
    parse_hex_bytes (hex_of_bytes bs) = some bs := by
  induction bs with
  | nil => rfl
  | cons b bs ih =>
    have hblt : b < 256 := hb b (List.mem_cons_self b bs)
    have h1 := hex_digit_round (b / 16) (by omega)
    have h2 := hex_digit_round (b % 16) (by omega)
    have ihx := ih (fun x hx => hb x (List.mem_cons_of_mem b hx))
    have hexp : hex_of_bytes (b :: bs)
        = Nat.digitChar (b / 16) :: Nat.digitChar (b % 16) :: hex_of_bytes bs := by
      simp [hex_of_bytes, byte_to_hex]
    rw [hexp]
    simp only [parse_hex_bytes, h1.1, h2.1, Bool.and_self, if_true, ihx,
      Option.map_some, h1.2, h2.2]
    have hval : b / 16 * 16 + b % 16 = b := by omega
    rw [hval]
    rfl

/-- Hex encoding doubles the length. -/
theorem hex_of_bytes_length (bs : List Nat) :
    (hex_of_bytes bs).length = 2 * bs.length := by
  induction bs with
  | nil => rfl
  | cons b bs ih =>
    simp only [hex_of_bytes, byte_to_hex, List.cons_append, List.nil_append,
      List.length_cons, ih]
    omega

/-- Every character of a hex encoding is a hex digit. -/
theorem hex_of_bytes_all_hex (bs : List Nat) (hb : ∀ b ∈ bs, b < 256) :
    ∀ c ∈ hex_of_bytes bs, is_ascii_hexdigit c = true := by
  induction bs with
  | nil => intro c hc; cases hc
  | cons b bs ih =>
    intro c hc
    have hblt : b < 256 := hb b (List.mem_cons_self b bs)
    simp only [hex_of_bytes, byte_to_hex, List.cons_append, List.nil_append,
      List.mem_cons] at hc
    rcases hc with h | h | h
    · subst h
      exact (hex_digit_round (b / 16) (by omega)).1
    · subst h
      exact (hex_digit_round (b % 16) (by omega)).1
    · exact ih (fun x hx => hb x (List.mem_cons_of_mem b hx)) c h

/-- find_colon on a colon-free prefix followed by a colon finds the colon. -/
theorem find_colon_append (l1 l2 : List Char) (h : ∀ c ∈ l1, ¬ c = ':') :
    find_colon (l1 ++ ':' :: l2) = some l1.length := by
  induction l1 with
  | nil => simp [find_colon]
  | cons c cs ih =>
    have hc : ¬ c = ':' := h c (List.mem_cons_self c cs)
    have ih2 := ih (fun x hx => h x (List.mem_cons_of_mem c hx))
    simp [find_colon, if_neg hc, ih2]

/-- The base case of nat_to_dec. -/
theorem nat_to_dec_lt (n : Nat) (h : n < 10) : nat_to_dec n = [Nat.digitChar n] := by
  rw [nat_to_dec]
  exact dif_pos h

/-- The recursive case of nat_to_dec. -/
theorem nat_to_dec_ge (n : Nat) (h : ¬ n < 10) :
    nat_to_dec n = nat_to_dec (n / 10) ++ [Nat.digitChar (n % 10)] := by
  rw [nat_to_dec]
  exact dif_neg h

/-- nat_to_dec never yields the empty list. -/
theorem nat_to_dec_ne_nil (n : Nat) : nat_to_dec n ≠ [] := by
  induction n using nat_to_dec.induct with
  | case1 x hx => rw [nat_to_dec_lt x hx]; simp
  | case2 x hx ih => rw [nat_to_dec_ge x hx]; simp

/-- Every character nat_to_dec yields is a decimal digit. -/
theorem nat_to_dec_all_digits (n : Nat) : (nat_to_dec n).all Char.isDigit = true := by
  induction n using nat_to_dec.induct with
  | case1 x hx =>
    rw [nat_to_dec_lt x hx]
    simpa using digit_char_is_digit x hx
  | case2 x hx ih =>
    rw [nat_to_dec_ge x hx, List.all_append, ih]
    simpa using digit_char_is_digit (x % 10) (by omega)

/-- nat_to_dec of a one-digit number has length one. -/
theorem nat_to_dec_length_one (n : Nat) (h : n < 10) : (nat_to_dec n).length = 1 := by
  rw [nat_to_dec_lt n h]
  rfl

/-- nat_to_dec of a number at least ten has more than one character. -/
theorem nat_to_dec_length_gt (n : Nat) (h : 10 ≤ n) : 1 < (nat_to_dec n).length := by
  rw [nat_to_dec_ge n (by omega), List.length_append]
  have hne := nat_to_dec_ne_nil (n / 10)
  have hpos : 0 < (nat_to_dec (n / 10)).length := List.length_pos.mpr hne
  simp only [List.length_cons, List.length_nil]
  omega

/-- The leading digit of a positive number is not the zero character. -/
theorem nat_to_dec_head_ne_zero (n : Nat) : 1 ≤ n → (nat_to_dec n).head? ≠ some '0' := by
  induction n using nat_to_dec.induct with
  | case1 x hx =>
    intro h1 hcon
    rw [nat_to_dec_lt x hx] at hcon
    simp only [List.head?_cons, Option.some.injEq] at hcon
    exact digit_char_ne_zero x h1 hx hcon
  | case2 x hx ih =>
    intro _h1
    rw [nat_to_dec_ge x hx, List.head?_append]
    have hne := nat_to_dec_ne_nil (x / 10)
    have hdiv : 1 ≤ x / 10 := by omega
    cases hh : (nat_to_dec (x / 10)).head? with
    | none => exact absurd (List.head?_eq_none_iff.mp hh) hne
    | some c =>
      have hc := ih hdiv
      rw [hh] at hc
      simpa using hc

/-- The foldl computing dec_value over nat_to_dec, with an arbitrary
accumulator. -/
theorem dec_value_go (n : Nat) : ∀ a : Nat,
    (nat_to_dec n).foldl (fun a c => a * 10 + (c.toNat - 48)) a
      = a * 10 ^ (nat_to_dec n).length + n := by
  induction n using nat_to_dec.induct with
  | case1 x hx =>
    intro a
    rw [nat_to_dec_lt x hx]
    simp only [List.foldl_cons, List.foldl_nil, List.length_cons, List.length_nil]
    rw [digit_char_to_nat x hx]
    simp [pow_one]
  | case2 x hx ih =>
    intro a
    rw [nat_to_dec_ge x hx, List.foldl_append, ih a]
    simp only [List.foldl_cons, List.foldl_nil, List.length_append, List.length_cons,
      List.length_nil]
    rw [digit_char_to_nat (x % 10) (by omega), pow_succ]
    generalize (10 : Nat) ^ (nat_to_dec (x / 10)).length = P
    rw [← mul_assoc]
    omega

/-- dec_value inverts nat_to_dec. -/
theorem dec_value_nat_to_dec (n : Nat) : dec_value (nat_to_dec n) = n := by
  have h := dec_value_go n 0
  simpa [dec_value] using h

/-- A number below 10^(k+1) has at most k+1 decimal digits. -/
theorem nat_to_dec_length_le : ∀ k n : Nat, n < 10 ^ (k + 1) → (nat_to_dec n).length ≤ k + 1 := by
  intro k
  induction k with
  | zero =>
    intro n hn
    rw [nat_to_dec_length_one n (by simpa using hn)]
  | succ k ih =>
    intro n hn
    by_cases h : n < 10
    · rw [nat_to_dec_length_one n h]
      omega
    · rw [nat_to_dec_ge n h, List.length_append]
      have hdiv : n / 10 < 10 ^ (k + 1) := by
        rw [Nat.div_lt_iff_lt_mul (by omega)]
        calc n < 10 ^ (k + 1 + 1) := hn
        _ = 10 ^ (k + 1) * 10 := by rw [pow_succ]
      have hlen := ih (n / 10) hdiv
      simp only [List.length_cons, List.length_nil]
      omega

end Andromeda

namespace Andromeda

/-- Canonical decimal text of a u32 value parses back to the value. -/
theorem parse_vout_nat_to_dec (v : Nat) (hv : v < 4294967296) :
    parse_vout (nat_to_dec v) = some v := by
  have hdig := nat_to_dec_all_digits v
  have hne := nat_to_dec_ne_nil v
  obtain ⟨c, rest, hcs⟩ := List.exists_cons_of_ne_nil hne
  have hcd : c.isDigit = true := by
    rw [hcs, List.all_cons, Bool.and_eq_true] at hdig
    exact hdig.1
  have hcplus : ¬ c = '+' := by
    intro h
    subst h
    exact absurd hcd (by decide)
  have hcond : ¬ (1 < (nat_to_dec v).length
      ∧ ((nat_to_dec v).head? = some '0' ∨ (nat_to_dec v).head? = some '+')) := by
    rintro ⟨hlen, hh | hh⟩
    · have h10 : 10 ≤ v := by
        by_contra hlt
        have := nat_to_dec_length_one v (by omega)
        omega
      exact nat_to_dec_head_ne_zero v (by omega) hh
    · rw [hcs, List.head?_cons, Option.some.injEq] at hh
      exact hcplus hh
  have hval : dec_value (c :: rest) = v := by
    have hvd := dec_value_nat_to_dec v
    rw [hcs] at hvd
    exact hvd
  have hdig2 : (c :: rest).all Char.isDigit = true := by
    rw [hcs] at hdig
    exact hdig
  rw [parse_vout, if_neg hcond, hcs]
  simp only [parse_u32, if_neg hcplus, List.isEmpty_cons, Bool.false_eq_true,
    if_false, hdig2, if_true, hval, if_pos hv]

/-- Round trip of the outpoint text representation: displaying an outpoint
and parsing the display recovers the outpoint. -/
theorem out_point_from_to (t : List Nat) (v : Nat) (hlen : t.length = 32)
    (hb : ∀ b ∈ t, b < 256) (hv : v < 4294967296) :
    out_point_from_chars (out_point_to_chars { txid := t, vout := v })
      = some { txid := t, vout := v } := by
  have hbrev : ∀ b ∈ t.reverse, b < 256 := fun b hbm => hb b (List.mem_reverse.mp hbm)
  have hHlen : (hex_of_bytes t.reverse).length = 64 := by
    rw [hex_of_bytes_length, List.length_reverse, hlen]
  have hDlen : (nat_to_dec v).length ≤ 10 := by
    refine nat_to_dec_length_le 9 v ?_
    have hp : (10 : Nat) ^ (9 + 1) = 10000000000 := by norm_num
    omega
  have hDpos : 0 < (nat_to_dec v).length := List.length_pos.mpr (nat_to_dec_ne_nil v)
  have hchars : out_point_to_chars { txid := t, vout := v }
      = hex_of_bytes t.reverse ++ ':' :: nat_to_dec v := rfl
  rw [hchars]
  have hlen75 : ¬ 75 < (hex_of_bytes t.reverse ++ ':' :: nat_to_dec v).length := by
    rw [List.length_append, hHlen, List.length_cons]
    omega
  have hhex : ∀ c ∈ hex_of_bytes t.reverse, ¬ c = ':' := by
    intro c hc hcc
    have hch := hex_of_bytes_all_hex t.reverse hbrev c hc
    rw [hcc] at hch
    exact absurd hch (by decide)
  have hfind : find_colon (hex_of_bytes t.reverse ++ ':' :: nat_to_dec v)
      = some (hex_of_bytes t.reverse).length :=
    find_colon_append (hex_of_bytes t.reverse) (nat_to_dec v) hhex
  simp only [out_point_from_chars, if_neg hlen75, hfind]
  have hi0 : ¬ ((hex_of_bytes t.reverse).length = 0
      ∨ (hex_of_bytes t.reverse).length
        = (hex_of_bytes t.reverse ++ ':' :: nat_to_dec v).length - 1) := by
    rw [hHlen, List.length_append, hHlen, List.length_cons]
    omega
  rw [if_neg hi0]
  have htake : (hex_of_bytes t.reverse ++ ':' :: nat_to_dec v).take
      (hex_of_bytes t.reverse).length = hex_of_bytes t.reverse :=
    List.take_left (hex_of_bytes t.reverse) (':' :: nat_to_dec v)
  have hdrop : (hex_of_bytes t.reverse ++ ':' :: nat_to_dec v).drop
      ((hex_of_bytes t.reverse).length + 1) = nat_to_dec v := by
    have hsplit : hex_of_bytes t.reverse ++ ':' :: nat_to_dec v
        = (hex_of_bytes t.reverse ++ [':']) ++ nat_to_dec v := by
      simp
    rw [hsplit]
    have hlen2 : (hex_of_bytes t.reverse ++ [':']).length
        = (hex_of_bytes t.reverse).length + 1 := by
      simp
    rw [← hlen2, List.drop_left]
  rw [htake, hdrop]
  have htxid : parse_txid_chars (hex_of_bytes t.reverse) = some t := by
    rw [parse_txid_chars, if_pos hHlen, parse_hex_of_bytes t.reverse hbrev]
    simp
  have hvout : parse_vout (nat_to_dec v) = some v := parse_vout_nat_to_dec v hv
  rw [htxid, hvout]

/-- A successful hex decode means every character was a hex digit. -/
theorem parse_hex_bytes_all_hex (cs : List Char) :
    ∀ bs : List Nat, parse_hex_bytes cs = some bs → cs.all is_ascii_hexdigit = true := by
  induction cs using parse_hex_bytes.induct with
  | case1 =>
    intro bs _h
    rfl
  | case2 c =>
    intro bs h
    exact absurd h (by simp [parse_hex_bytes])
  | case3 c1 c2 rest hcond ih =>
    intro bs h
    rw [parse_hex_bytes, if_pos hcond] at h
    cases hp : parse_hex_bytes rest with
    | none =>
      rw [hp] at h
      exact absurd h (by simp)
    | some bs2 =>
      rw [Bool.and_eq_true] at hcond
      simp only [List.all_cons, hcond.1, hcond.2, Bool.true_and]
      exact ih bs2 hp
  | case4 c1 c2 rest hcond =>
    intro bs h
    rw [parse_hex_bytes, if_neg hcond] at h
    exact absurd h (by simp)

/-- A successful txid parse means the text had the txid form. -/
theorem parse_txid_form (cs : List Char) (t : List Nat)
    (h : parse_txid_chars cs = some t) : is_txid_form cs = true := by
  rw [parse_txid_chars] at h
  by_cases h64 : cs.length = 64
  · rw [if_pos h64] at h
    cases hp : parse_hex_bytes cs with
    | none =>
      rw [hp] at h
      exact absurd h (by simp)
    | some bs =>
      simp only [is_txid_form, h64, beq_self_eq_true, Bool.true_and]
      exact parse_hex_bytes_all_hex cs bs hp
  · rw [if_neg h64] at h
    exact absurd h (by simp)

/-- A successful vout parse means the text had the canonical vout form. -/
theorem parse_vout_form (cs : List Char) (v : Nat)
    (h : parse_vout cs = some v) : is_vout_form cs = true := by
  rw [parse_vout] at h
  by_cases hc : (1 < cs.length ∧ (cs.head? = some '0' ∨ cs.head? = some '+'))
  · rw [if_pos hc] at h
    exact absurd h (by simp)
  · rw [if_neg hc] at h
    cases cs with
    | nil => exact absurd h (by simp [parse_u32])
    | cons c rest =>
      by_cases hplus : c = '+'
      · subst hplus
        cases rest with
        | nil => exact absurd h (by simp [parse_u32])
        | cons c2 rest2 =>
          exfalso
          refine hc ⟨?_, Or.inr ?_⟩
          · simp only [List.length_cons]
            omega
          · rfl
      · rw [parse_u32] at h
        simp only [if_neg hplus, List.isEmpty_cons, Bool.false_eq_true, if_false] at h
        by_cases hdig : (c :: rest).all Char.isDigit
        · rw [if_pos hdig] at h
          by_cases hlt : dec_value (c :: rest) < 4294967296
          · rw [if_pos hlt] at h
            simp only [is_vout_form, List.isEmpty_cons, Bool.not_false, hdig,
              Bool.true_and, Bool.and_eq_true, decide_eq_true_eq]
            refine ⟨?_, hlt⟩
            by_cases hone : (c :: rest).length = 1
            · simp [hone]
            · have hgt : 1 < (c :: rest).length := by
                simp only [List.length_cons] at *
                omega
              have hz : ¬ (c :: rest).head? = some '0' := fun hh => hc ⟨hgt, Or.inl hh⟩
              simp only [List.head?_cons] at hz
              simp only [List.head?_cons, Bool.or_eq_true, beq_iff_eq, Bool.not_eq_true']
              right
              simp only [beq_eq_false_iff_ne, ne_eq, Option.some.injEq]
              exact fun hcc => hz (by rw [hcc])
          · rw [if_neg hlt] at h
            exact absurd h (by simp)
        · rw [if_neg hdig] at h
          exact absurd h (by simp)

/-- A successful outpoint parse means the text had the outpoint form. -/
theorem out_point_from_chars_form (cs : List Char) (o : OutPoint)
    (h : out_point_from_chars cs = some o) : is_out_point_form cs = true := by
  rw [out_point_from_chars] at h
  by_cases h75 : 75 < cs.length
  · rw [if_pos h75] at h
    exact absurd h (by simp)
  · rw [if_neg h75] at h
    cases hfc : find_colon cs with
    | none =>
      rw [hfc] at h
      exact absurd h (by simp)
    | some i =>
      rw [hfc] at h
      have h2 : (if i = 0 ∨ i = cs.length - 1 then (none : Option OutPoint)
          else
            match parse_txid_chars (cs.take i), parse_vout (cs.drop (i + 1)) with
            | some t, some v => some { txid := t, vout := v }
            | _, _ => none) = some o := h
      by_cases hio : i = 0 ∨ i = cs.length - 1
      · rw [if_pos hio] at h2
        exact absurd h2 (by simp)
      · rw [if_neg hio] at h2
        push_neg at hio
        cases htx : parse_txid_chars (cs.take i) with
        | none =>
          cases hvt : parse_vout (cs.drop (i + 1)) with
          | none =>
            rw [htx, hvt] at h2
            simp at h2
          | some v' =>
            rw [htx, hvt] at h2
            simp at h2
        | some t' =>
          cases hvt : parse_vout (cs.drop (i + 1)) with
          | none =>
            rw [htx, hvt] at h2
            simp at h2
          | some v' =>
            rw [is_out_point_form, hfc]
            show (!(i == 0) && !(i == cs.length - 1) && is_txid_form (cs.take i)
              && is_vout_form (cs.drop (i + 1))) = true
            have hf1 := parse_txid_form (cs.take i) t' htx
            have hf2 := parse_vout_form (cs.drop (i + 1)) v' hvt
            simp [hf1, hf2, hio.1, hio.2]

end Andromeda

namespace Andromeda

/-- C10: Serialising an outpoint to its "txid:index" string and parsing the
string back succeeds and returns the original outpoint, and parsing a string
that is not of that form fails with OutpointParsingError instead of
producing an outpoint. -/
theorem c10_outpoint_roundtrip (t : List Nat) (v : Nat) (hlen : t.length = 32)
    (hb : ∀ b ∈ t, b < 256) (hv : v < 4294967296) :
    wasm_out_point_try_into (wasm_out_point_of_out_point { txid := t, vout := v })
      = Except.ok { txid := t, vout := v }
    ∧ ∀ w : WasmOutPoint, is_out_point_form w.val.data = false →
        wasm_out_point_try_into w = Except.error WasmError.OutpointParsingError := by
  constructor
  · have hdata : (wasm_out_point_of_out_point { txid := t, vout := v }).val.data
        = out_point_to_chars { txid := t, vout := v } := rfl
    rw [wasm_out_point_try_into, hdata, out_point_from_to t v hlen hb hv]
  · intro w hw
    rw [wasm_out_point_try_into]
    cases hp : out_point_from_chars w.val.data with
    | none => rfl
    | some o =>
      have := out_point_from_chars_form w.val.data o hp
      rw [hw] at this
      exact absurd this (by simp)

/-- Witness for C10 at the all-zero txid and vout 0. -/
theorem c10_witness :
    wasm_out_point_try_into
        (wasm_out_point_of_out_point { txid := List.replicate 32 0, vout := 0 })
      = Except.ok { txid := List.replicate 32 0, vout := 0 } :=
  (c10_outpoint_roundtrip (List.replicate 32 0) 0 (by decide)
    (by decide) (by decide)).1

end Andromeda
